/-
Verification of the cvat repository specification against a shallow
embedding of its three source files:
  * datumaro/components/converters/ms_coco.py  (COCO export codec)
  * cvat/apps/datumaro/task.py                 (export cache and cleanup)
  * utils/parser.py                            (CVAT XML ingestion parser)
Machine integers are modelled as Nat/Int, Python floats as Rat (all
arithmetic in the claims is exact on the inputs considered), fallible
Python code as Option/Except.
-/
import Mathlib

set_option autoImplicit false

/-! ## COCO export codec (ms_coco.py) -/

/-- Kinds of datumaro annotations (AnnotationType in datumaro.components.extractor). -/
inductive AnnType where
  | label
  | mask
  | points
  | polygon
  | polyline
  | bbox
  | caption
deriving DecidableEq, Repr

/-- Visibility states of a point. Modelled from the spec: PointsObject.Visibility
with values 0 = absent, 1 = hidden-but-labeled, 2 = visible (the extractor module
is not under src). -/
inductive Vis where
  | absent
  | hidden
  | visible
deriving DecidableEq, Repr

/-- Modelled from the spec: the numeric value of a visibility state. -/
def Vis.value : Vis → Rat
  | .absent => 0
  | .hidden => 1
  | .visible => 2

/-- Values held in the attributes mapping of an annotation (Python dict values;
boolean and numeric values suffice for the claims, string values are not used). -/
inductive AttrVal where
  | b (v : Bool)
  | n (v : Rat)
deriving DecidableEq, Repr

/-- Python truthiness of an attribute value. -/
def AttrVal.truthy : AttrVal → Bool
  | .b v => v
  | .n v => v != 0

/-- Python float() applied to an attribute value. -/
def AttrVal.toRat : AttrVal → Rat
  | .b v => if v then 1 else 0
  | .n v => v

/-- dict.get on an attribute list (first binding wins, as keys are unique). -/
def getAttr (attrs : List (String × AttrVal)) (k : String) : Option AttrVal :=
  (attrs.find? (fun p => p.1 == k)).map Prod.snd

/-- One datumaro annotation as consumed by the COCO converters. Geometry fields
not used by the kind of the annotation keep their defaults.  A box carries
(x, y, w, h) as in BboxObject; polygon and points carry a flat coordinate list
as returned by get_points; a mask carries its binary raster rows. -/
structure CocoAnn where
  type : AnnType
  id : Option Nat := none
  group : Option Int := none
  label : Option String := none
  attributes : List (String × AttrVal) := []
  x : Rat := 0
  y : Rat := 0
  w : Rat := 0
  h : Rat := 0
  points : List Rat := []
  visibility : List Vis := []
  mask : List (List Bool) := []
  caption : Option String := none
deriving DecidableEq, Repr

/-- One dataset item (image with its annotations) as consumed by the converters. -/
structure CocoItem where
  id : Option String := none
  anns : List CocoAnn := []
  hasImage : Bool := false
  imgH : Nat := 0
  imgW : Nat := 0
deriving DecidableEq, Repr

/-- datumaro.util.find: first element satisfying the predicate, None otherwise. -/
def findAnn (l : List CocoAnn) (p : CocoAnn → Bool) : Option CocoAnn :=
  l.find? p

/-- Python int() on an optional string label reference; none when the value is
absent or not convertible. -/
def labelCast (l : Option String) : Option Int :=
  match l with
  | none => none
  | some s => s.toInt?

/-- The _cast(value, int, default) helper specialised to labels as used for
category_id: returns the default -1 when conversion fails. -/
def castLabelD (l : Option String) : Int :=
  (labelCast l).getD (-1)

/-- The _cast(item.id, int, 0) helper used for image_id. -/
def castItemId (i : Option String) : Int :=
  (labelCast i).getD 0

/-- Modelled from the spec: BboxObject.area() is box width times height. -/
def bboxArea (a : CocoAnn) : Rat := a.w * a.h

/-- Modelled from the spec: BboxObject.get_bbox() returns [x, y, w, h]. -/
def bboxGetBbox (a : CocoAnn) : List Rat := [a.x, a.y, a.w, a.h]

/-- Modelled from the spec: BboxObject.get_polygon() is the 4-point rectangle
built from the corners of the box, as a flat coordinate list. -/
def bboxPolygonOf (a : CocoAnn) : List Rat :=
  [a.x, a.y, a.x + a.w, a.y, a.x + a.w, a.y + a.h, a.x, a.y + a.h]

/-- Run-length helper: counts alternating runs, starting in state cur with
an open run of length cnt. -/
def rleAux : Bool → Nat → List Bool → List Nat
  | _, cnt, [] => [cnt]
  | cur, cnt, b :: bs => if b == cur then rleAux cur (cnt + 1) bs else cnt :: rleAux b 1 bs

/-- Modelled from the spec: mask_tools.convert_mask_to_rle encodes a binary
mask as alternating background/foreground run lengths in row-major order
(mask_tools is outside src). -/
def convert_mask_to_rle (mask : List (List Bool)) : List Nat :=
  rleAux false 0 mask.flatten

/-- Modelled from the spec: mask_utils.area of an encoded mask is the count of
foreground pixels. -/
def maskArea (mask : List (List Bool)) : Nat :=
  (mask.flatten.filter (fun b => b)).length

/-- Segmentation payloads appearing in emitted records: run-length runs, a list
of polygons (instances converter), or a single flat polygon (keypoints
converter). -/
inductive Seg where
  | rle (runs : List Nat)
  | polys (ps : List (List Rat))
  | flat (ps : List Rat)
deriving DecidableEq, Repr

/-- One emitted COCO annotation record; optional fields mirror the keys present
in the Python dict for the various converters. -/
structure CocoElem where
  id : Option Nat := none
  image_id : Int := 0
  category_id : Int := 0
  segmentation : Option Seg := none
  area : Option Rat := none
  bbox : Option (List Rat) := none
  iscrowd : Option Nat := none
  score : Option Rat := none
  caption : Option String := none
  keypoints : Option (List Rat) := none
  num_keypoints : Option Nat := none
deriving DecidableEq, Repr

/-- Exported category record; keypoints and skeleton only for the keypoints
converter. -/
structure CatRec where
  id : Nat
  name : String
  supercategory : String
  keypoints : Option (List String) := none
  skeleton : Option (List Nat) := none
deriving DecidableEq, Repr

/-- Exported image record (save_image_info). -/
structure ImgRec where
  id : Int
  width : Nat
  height : Nat
  file_name : String
  license : Nat := 0
  flickr_url : String := ""
  coco_url : String := ""
  date_captured : Nat := 0
deriving DecidableEq, Repr

/-- State of one _TaskConverter: the running minimum fresh id and the data
lists being accumulated (licenses and info are constants, kept in TaskData). -/
structure TaskConv where
  min_ann_id : Nat := 1
  categories : List CatRec := []
  images : List ImgRec := []
  anns : List CocoElem := []
deriving DecidableEq, Repr

/-- _TaskConverter._get_ann_id: returns the source id of the annotation and
advances the running counter to the maximum id seen (only truthy ids advance
the counter). -/
def getAnnId (ann : CocoAnn) (c : TaskConv) : Option Nat × TaskConv :=
  match ann.id with
  | none => (none, c)
  | some n => (some n, if n == 0 then c else { c with min_ann_id := Nat.max n c.min_ann_id })

/-- The id-assignment loop of _TaskConverter.write: records without an id get
consecutive fresh ids starting from the running counter. -/
def assignIds : Nat → List CocoElem → List CocoElem
  | _, [] => []
  | next, e :: rest =>
    match e.id with
    | none => { e with id := some next } :: assignIds (next + 1) rest
    | some _ => e :: assignIds next rest

/-- The annotation list as written to disk by _TaskConverter.write. -/
def writeAnns (c : TaskConv) : List CocoElem :=
  assignIds c.min_ann_id c.anns

/-- The is_crowd flag of a box: ann.attributes.get applied with key is_crowd
and default False, under Python truthiness. -/
def isCrowdOf (ann : CocoAnn) : Bool :=
  match getAttr ann.attributes "is_crowd" with
  | none => false
  | some v => v.truthy

/-- The score attribute copied through as a float when present. -/
def scoreOf (ann : CocoAnn) : Option Rat :=
  (getAttr ann.attributes "score").map AttrVal.toRat

/-- Predicate for the co-grouped mask lookup of the instances converter. -/
def coMask (g : Int) (x : CocoAnn) : Bool :=
  x.group == some g && x.type == AnnType.mask

/-- Predicate for the co-grouped polygon lookup of the instances converter. -/
def coPolygon (g : Int) (x : CocoAnn) : Bool :=
  x.group == some g && x.type == AnnType.polygon

/-- Result of the segmentation derivation for one box. -/
structure InstSeg where
  seg : Seg
  area : Rat
  crowd : Bool
deriving DecidableEq, Repr

/-- The segmentation/area/iscrowd derivation of _InstancesConverter.save_annotations
for one box annotation of the item. -/
def instSeg (item : CocoItem) (ann : CocoAnn) : InstSeg :=
  let crowd := isCrowdOf ann
  let found : Option InstSeg :=
    match ann.group with
    | none => none
    | some g =>
      if crowd then
        match findAnn item.anns (coMask g) with
        | some m => some ⟨.rle (convert_mask_to_rle m.mask), (maskArea m.mask : Rat), crowd⟩
        | none => none
      else
        match findAnn item.anns (coPolygon g) with
        | some p => some ⟨.polys [p.points], bboxArea ann, crowd⟩
        | none => none
  match found with
  | some r => r
  | none => ⟨.polys [bboxPolygonOf ann], bboxArea ann, false⟩

/-- The record emitted by _InstancesConverter.save_annotations for one box
annotation, given the id returned by _get_ann_id. -/
def instElem (item : CocoItem) (ann : CocoAnn) (annId : Option Nat) : CocoElem :=
  let r := instSeg item ann
  { id := annId,
    image_id := castItemId item.id,
    category_id := castLabelD ann.label + 1,
    segmentation := some r.seg,
    area := some r.area,
    bbox := some (bboxGetBbox ann),
    iscrowd := some (if r.crowd then 1 else 0),
    score := scoreOf ann }

/-- The annotation loop of _InstancesConverter.save_annotations over a list of
annotations of the item (non-box annotations are skipped). -/
def instFold (item : CocoItem) : List CocoAnn → TaskConv → TaskConv
  | [], c => c
  | a :: rest, c =>
    if a.type == AnnType.bbox then
      let p := getAnnId a c
      instFold item rest { p.2 with anns := p.2.anns ++ [instElem item a p.1] }
    else instFold item rest c

/-- _InstancesConverter.save_annotations. -/
def instSaveAnns (item : CocoItem) (c : TaskConv) : TaskConv :=
  instFold item item.anns c

/-- The flat keypoints list of _KeypointsConverter.save_annotations: for each
index step of 2 over the point list, the two coordinates followed by the
numeric value of the visibility state of that point. -/
def buildKeypoints : List Rat → List Vis → List Rat
  | px :: py :: rest, v :: vs => px :: py :: v.value :: buildKeypoints rest vs
  | _, _ => []

/-- Count of visible points (num_keypoints). -/
def countVisible (vs : List Vis) : Nat :=
  (vs.filter (fun v => v == Vis.visible)).length

/-- Pairs of successive coordinates of a flat coordinate list. -/
def toPairs : List Rat → List (Rat × Rat)
  | px :: py :: rest => (px, py) :: toPairs rest
  | _ => []

/-- Minimum over a list with a seed. -/
def ratMin (seed : Rat) (l : List Rat) : Rat :=
  l.foldl min seed

/-- Maximum over a list with a seed. -/
def ratMax (seed : Rat) (l : List Rat) : Rat :=
  l.foldl max seed

/-- Modelled from the spec: PointsObject.get_bbox() is the bounding box of the
extrema of the own points, as [x, y, w, h]. An empty point list yields the
degenerate box at the origin (the Python code would fail there; no claim uses
an empty point list). -/
def pointsGetBbox (pts : List Rat) : List Rat :=
  match toPairs pts with
  | [] => [0, 0, 0, 0]
  | p :: rest =>
    let xs := (rest.map Prod.fst)
    let ys := (rest.map Prod.snd)
    let x0 := ratMin p.1 xs
    let y0 := ratMin p.2 ys
    let x1 := ratMax p.1 xs
    let y1 := ratMax p.2 ys
    [x0, y0, x1 - x0, y1 - y0]

/-- A box value (x, y, w, h) as carried by a BboxObject. -/
structure BoxVals where
  x : Rat
  y : Rat
  w : Rat
  h : Rat
deriving DecidableEq, Repr

/-- BboxObject built from a [x, y, w, h] list (extra or missing entries keep
zeros; all uses pass exactly four values). -/
def boxValsOf (l : List Rat) : BoxVals :=
  match l with
  | [bx, by_, bw, bh] => ⟨bx, by_, bw, bh⟩
  | _ => ⟨0, 0, 0, 0⟩

/-- Modelled from the spec: get_polygon of a box value. -/
def boxValsPolygon (b : BoxVals) : List Rat :=
  [b.x, b.y, b.x + b.w, b.y, b.x + b.w, b.y + b.h, b.x, b.y + b.h]

/-- Predicate of the box lookup of the keypoints converter: same group field,
box type, same label. The group fields are compared directly, so two
annotations both without a group also match. -/
def sameGroupLabelBbox (ann : CocoAnn) (x : CocoAnn) : Bool :=
  x.group == ann.group && x.type == AnnType.bbox && x.label == ann.label

/-- The record emitted by _KeypointsConverter.save_annotations for one points
annotation, given the id returned by _get_ann_id. -/
def kpElem (item : CocoItem) (ann : CocoAnn) (annId : Option Nat) : CocoElem :=
  let b : BoxVals :=
    match findAnn item.anns (sameGroupLabelBbox ann) with
    | some bb => ⟨bb.x, bb.y, bb.w, bb.h⟩
    | none => boxValsOf (pointsGetBbox ann.points)
  { id := annId,
    image_id := castItemId item.id,
    category_id := castLabelD ann.label + 1,
    segmentation := some (.flat (boxValsPolygon b)),
    area := some (b.w * b.h),
    bbox := some [b.x, b.y, b.w, b.h],
    iscrowd := some 0,
    score := scoreOf ann,
    keypoints := some (buildKeypoints ann.points ann.visibility),
    num_keypoints := some (countVisible ann.visibility) }

/-- The annotation loop of _KeypointsConverter.save_annotations. -/
def kpFold (item : CocoItem) : List CocoAnn → TaskConv → TaskConv
  | [], c => c
  | a :: rest, c =>
    if a.type == AnnType.points then
      let p := getAnnId a c
      kpFold item rest { p.2 with anns := p.2.anns ++ [kpElem item a p.1] }
    else kpFold item rest c

/-- _KeypointsConverter.save_annotations. -/
def kpSaveAnns (item : CocoItem) (c : TaskConv) : TaskConv :=
  kpFold item item.anns c

/-- The record emitted by _CaptionsConverter.save_annotations for one caption
annotation (category_id is the constant 0 workaround). -/
def capElem (item : CocoItem) (ann : CocoAnn) (annId : Option Nat) : CocoElem :=
  { id := annId,
    image_id := castItemId item.id,
    category_id := 0,
    caption := ann.caption,
    score := scoreOf ann }

/-- The annotation loop of _CaptionsConverter.save_annotations. -/
def capFold (item : CocoItem) : List CocoAnn → TaskConv → TaskConv
  | [], c => c
  | a :: rest, c =>
    if a.type == AnnType.caption then
      let p := getAnnId a c
      capFold item rest { p.2 with anns := p.2.anns ++ [capElem item a p.1] }
    else capFold item rest c

/-- The annotation loop of _LabelsConverter.save_annotations. The category_id
is int(ann.label) + 1 without a fallback, so an absent or unconvertible label
raises (modelled as none). -/
def labFold (item : CocoItem) : List CocoAnn → TaskConv → Option TaskConv
  | [], c => some c
  | a :: rest, c =>
    if a.type == AnnType.label then
      match labelCast a.label with
      | none => none
      | some v =>
        let p := getAnnId a c
        labFold item rest { p.2 with anns := p.2.anns ++
          [{ id := p.1, image_id := castItemId item.id, category_id := v + 1,
             score := scoreOf a }] }
    else labFold item rest c

/-! ### Categories -/

/-- One entry of LabelCategories.items. -/
structure LabelCat where
  name : String
  parent : String := ""
deriving DecidableEq, Repr

/-- One entry of PointsCategories.items: ordered keypoint names and the
skeleton adjacency list. -/
structure KpCat where
  labels : List String := []
  adjacent : List Nat := []
deriving DecidableEq, Repr

/-- The categories of a dataset as seen by save_categories: the label
categories (AnnotationType.label) and the points-category side table
(AnnotationType.points, a mapping from label index to KpCat). -/
structure Dataset where
  labelCats : Option (List LabelCat) := none
  pointsCats : Option (List (Nat × KpCat)) := none
deriving DecidableEq, Repr

/-- _InstancesConverter.save_categories (also _LabelsConverter): one category
per label, id 1 + index. -/
def instCats (d : Dataset) : List CatRec :=
  match d.labelCats with
  | none => []
  | some items => items.enum.map (fun p =>
      { id := 1 + p.1, name := p.2.name, supercategory := p.2.parent })

/-- The loop of _KeypointsConverter.save_categories: for each entry of the
points side table, the label at the same index provides name and parent; a
missing label index raises (modelled as none). -/
def kpCatsLoop (labelItems : List LabelCat) : List (Nat × KpCat) → Option (List CatRec)
  | [] => some []
  | (idx, kp) :: rest =>
    match labelItems[idx]? with
    | none => none
    | some lc =>
      match kpCatsLoop labelItems rest with
      | none => none
      | some cs => some ({ id := 1 + idx, name := lc.name, supercategory := lc.parent,
                           keypoints := some kp.labels, skeleton := some kp.adjacent } :: cs)

/-- _KeypointsConverter.save_categories: returns without categories when either
side table is missing. -/
def kpCats (d : Dataset) : Option (List CatRec) :=
  match d.labelCats with
  | none => some []
  | some li =>
    match d.pointsCats with
    | none => some []
    | some pcs => kpCatsLoop li pcs

/-! ### The convert driver (_Converter.convert) for one subset -/

/-- The five COCO task kinds (CocoAnnotationType). -/
inductive CocoTaskKind where
  | image_info
  | instances
  | person_keypoints
  | captions
  | labels
deriving DecidableEq, Repr

/-- The name of a task kind as used in the output file name. -/
def kindName : CocoTaskKind → String
  | .image_info => "image_info"
  | .instances => "instances"
  | .person_keypoints => "person_keypoints"
  | .captions => "captions"
  | .labels => "labels"

/-- Modelled from the spec: the image file extension used for exported images
(CocoPath.IMAGE_EXT, outside src). -/
def IMAGE_EXT : String := ".jpg"

/-- Modelled from the spec: the subset name substituted for an empty subset
name (DEFAULT_SUBSET_NAME, outside src). -/
def DEFAULT_SUBSET_NAME : String := "default"

/-- Python str() of the optional item id. -/
def strOfId (i : Option String) : String :=
  match i with
  | none => "None"
  | some s => s

/-- The file name computed per item in convert. -/
def filenameOf (item : CocoItem) : String :=
  if item.hasImage then strOfId item.id ++ IMAGE_EXT else ""

/-- _TaskConverter.save_image_info for one item. -/
def imgRecOf (item : CocoItem) (fname : String) : ImgRec :=
  { id := castItemId item.id,
    width := if item.hasImage then item.imgW else 0,
    height := if item.hasImage then item.imgH else 0,
    file_name := fname }

/-- save_annotations dispatch per task kind (image_info adds nothing). A none
result models a raised exception. -/
def saveAnnsK (k : CocoTaskKind) (item : CocoItem) (c : TaskConv) : Option TaskConv :=
  match k with
  | .image_info => some c
  | .instances => some (instSaveAnns item c)
  | .person_keypoints => some (kpSaveAnns item c)
  | .captions => some (capFold item item.anns c)
  | .labels => labFold item item.anns c

/-- save_categories dispatch per task kind. -/
def saveCatsK (k : CocoTaskKind) (d : Dataset) : Option (List CatRec) :=
  match k with
  | .image_info => some []
  | .instances => some (instCats d)
  | .person_keypoints => kpCats d
  | .captions => some []
  | .labels => some (instCats d)

/-- is_empty per task kind: image_info checks the image list, the others the
annotation list. -/
def isEmptyConv (k : CocoTaskKind) (c : TaskConv) : Bool :=
  match k with
  | .image_info => c.images.isEmpty
  | _ => c.anns.isEmpty

/-- The item loop of convert for one task converter: save_image_info then
save_annotations per item. -/
def itemsFold (k : CocoTaskKind) : List CocoItem → TaskConv → Option TaskConv
  | [], c => some c
  | it :: rest, c =>
    let c1 := { c with images := c.images ++ [imgRecOf it (filenameOf it)] }
    match saveAnnsK k it c1 with
    | none => none
    | some c2 => itemsFold k rest c2

/-- One whole task converter run over a subset: categories, then all items. -/
def runConv (d : Dataset) (items : List CocoItem) (k : CocoTaskKind) : Option TaskConv :=
  match saveCatsK k d with
  | none => none
  | some cats => itemsFold k items { min_ann_id := 1, categories := cats, images := [], anns := [] }

/-- The constant licenses entry written by every converter. -/
structure LicRec where
  name : String := ""
  id : Nat := 0
  url : String := ""
deriving DecidableEq, Repr

/-- The constant info block written by every converter. -/
structure InfoRec where
  contributor : String := ""
  date_created : String := ""
  description : String := ""
  url : String := ""
  version : String := ""
  year : String := ""
deriving DecidableEq, Repr

/-- One written JSON document: the five top-level keys licenses, info,
categories, images, annotations. -/
structure TaskData where
  licenses : List LicRec
  info : InfoRec
  categories : List CatRec
  images : List ImgRec
  anns : List CocoElem
deriving DecidableEq, Repr

/-- The document dumped by _TaskConverter.write: constant licenses and info,
the accumulated categories and images, and the annotations after fresh-id
assignment. -/
def toData (c : TaskConv) : TaskData :=
  { licenses := [{}], info := {}, categories := c.categories,
    images := c.images, anns := writeAnns c }

/-- The output file name for one task kind and subset. -/
def fileNameFor (k : CocoTaskKind) (subsetName : String) : String :=
  kindName k ++ "_" ++ subsetName ++ ".json"

/-- An empty subset name is replaced by the default one. -/
def normSubset (s : String) : String :=
  if s == "" then DEFAULT_SUBSET_NAME else s

/-- The write loop at the end of convert for one subset: each non-empty task
converter writes one document; a raised exception anywhere yields none. -/
def convertTasks (d : Dataset) (items : List CocoItem) (sname : String) :
    List CocoTaskKind → Option (List (String × TaskData))
  | [] => some []
  | k :: rest =>
    match runConv d items k with
    | none => none
    | some conv =>
      match convertTasks d items sname rest with
      | none => none
      | some out =>
        some (if isEmptyConv k conv then out
              else (fileNameFor k sname, toData conv) :: out)

/-- _Converter.convert restricted to one subset: an empty subset name is
replaced by the default, then every requested task converter runs and the
non-empty ones are written. -/
def convertSubset (d : Dataset) (tasks : List CocoTaskKind) (subsetName : String)
    (items : List CocoItem) : Option (List (String × TaskData)) :=
  convertTasks d items (normSubset subsetName) tasks

/-! ## Export cache (cvat/apps/datumaro/task.py) -/

/-- Filesystem metadata of the archive file at the canonical path. -/
structure ArchFile where
  mtime : Nat
  ctime : Nat
deriving DecidableEq, Repr

/-- State visible to export_project: the archive (if any) at the canonical
path, and the current clock used for timestamps of a fresh build. -/
structure CacheState where
  archive : Option ArchFile
  now : Nat
deriving DecidableEq, Repr

/-- The canonical archive path: osp.join of the cache directory and the format
name, with the zip suffix. -/
def archivePath (cacheDir fmt : String) : String :=
  cacheDir ++ "/" ++ fmt ++ ".zip"

/-- The freshness test of export_project: the archive exists and the task
last-modified time is at most the archive modification time. -/
def isFresh (taskTime : Nat) (st : CacheState) : Bool :=
  match st.archive with
  | none => false
  | some a => if taskTime ≤ a.mtime then true else false

/-- Result of one export request: the returned path, whether a rebuild
happened, the resulting state, and the archive creation time captured by the
enqueued cleanup job (if one was scheduled). -/
structure ExportRes where
  path : String
  rebuilt : Bool
  state : CacheState
  scheduledCtime : Option Nat
deriving DecidableEq, Repr

/-- export_project for a task with the given last-modified timestamp: the
cheap path returns the existing archive untouched; otherwise the archive is
rebuilt (published with the current clock as modification and creation time)
and a cleanup job capturing the creation time is enqueued. -/
def export_project (cacheDir fmt : String) (taskTime : Nat) (st : CacheState) : ExportRes :=
  let path := archivePath cacheDir fmt
  if isFresh taskTime st then
    ⟨path, false, st, none⟩
  else
    ⟨path, true, ⟨some ⟨st.now, st.now⟩, st.now⟩, some st.now⟩

/-- clear_export_cache: deletes the archive exactly when it still exists and
its creation time equals the captured value; returns the resulting archive
state. -/
def clear_export_cache (fileCtime : Nat) (fs : Option ArchFile) : Option ArchFile :=
  match fs with
  | none => none
  | some a => if a.ctime == fileCtime then none else some a

/-! ## CVAT XML ingestion parser (utils/parser.py) -/

/-- One XML element: tag, element attributes, text, children. -/
inductive XmlElem where
  | mk (tag : String) (attrs : List (String × String)) (text : Option String)
       (children : List XmlElem)

/-- The tag of an element. -/
def XmlElem.tag : XmlElem → String
  | .mk t _ _ _ => t

/-- The element attributes. -/
def XmlElem.attrs : XmlElem → List (String × String)
  | .mk _ a _ _ => a

/-- The text of an element (None when absent). -/
def XmlElem.text : XmlElem → Option String
  | .mk _ _ x _ => x

/-- The direct children of an element. -/
def XmlElem.children : XmlElem → List XmlElem
  | .mk _ _ _ cs => cs

mutual
/-- Element.iter(tag): the element itself (when its tag matches) followed by
all matching descendants, in document order. -/
def iterTag (tag : String) : XmlElem → List XmlElem
  | .mk t a x cs => (if t == tag then [XmlElem.mk t a x cs] else []) ++ iterTagList tag cs
/-- iterTag over a forest of children. -/
def iterTagList (tag : String) : List XmlElem → List XmlElem
  | [] => []
  | c :: cs => iterTag tag c ++ iterTagList tag cs
end

/-- Element.find(tag): the first direct child with the given tag. -/
def findChild (e : XmlElem) (tag : String) : Option XmlElem :=
  e.children.find? (fun c => c.tag == tag)

/-- The Python exceptions the parser can raise. -/
inductive PErr where
  | attrErr
  | typeErr
  | valErr
  | keyErr
  | idxErr
  | assertErr
deriving DecidableEq, Repr

/-- mapM over Except, written out for easy case analysis. -/
def exMapM {α β : Type} (f : α → Except PErr β) : List α → Except PErr (List β)
  | [] => .ok []
  | a :: rest =>
    match f a with
    | .error e => .error e
    | .ok b =>
      match exMapM f rest with
      | .error e => .error e
      | .ok bs => .ok (b :: bs)

/-- dict comprehension lookup: the value of the last pair with the given key
(later duplicate keys overwrite earlier ones in a dict). -/
def kwLookup {α : Type} (kw : List (String × α)) (k : String) : Option α :=
  ((kw.filter (fun p => p.1 == k)).map Prod.snd).getLast?

/-- Python int() on a plain decimal numeral string (optional sign, digits). -/
def parseInt? (s : String) : Option Int :=
  match s.data with
  | [] => none
  | '-' :: rest => if rest ≠ [] ∧ rest.all Char.isDigit
      then some (-(Int.ofNat (rest.foldl (fun a c => 10 * a + (c.toNat - 48)) 0)))
      else none
  | cs => if cs.all Char.isDigit
      then some (Int.ofNat (cs.foldl (fun a c => 10 * a + (c.toNat - 48)) 0))
      else none

/-- Split a character list at the first dot. -/
def splitDot : List Char → List Char × Option (List Char)
  | [] => ([], none)
  | c :: rest =>
    if c == '.' then ([], some rest)
    else
      let p := splitDot rest
      (c :: p.1, p.2)

/-- Python float() on a plain decimal literal (optional sign, digits, at most
one dot, at least one digit); exponents and special values are not used by
the documents considered. -/
def parseFloat? (s : String) : Option Rat :=
  let step := fun (p : Bool × List Char) =>
    match p.2 with
    | [] => none
    | _ =>
      let q := splitDot p.2
      let intPart := q.1
      let fracPart := (q.2).getD []
      if (q.2).isSome ∧ fracPart.elem '.' then none
      else if intPart.isEmpty ∧ fracPart.isEmpty then none
      else if (intPart ++ fracPart).all Char.isDigit then
        let n : Nat := (intPart ++ fracPart).foldl (fun a c => 10 * a + (c.toNat - 48)) 0
        let r : Rat := (n : Rat) / ((10 : Rat) ^ fracPart.length)
        some (if p.1 then -r else r)
      else none
  match s.data with
  | '-' :: rest => step (true, rest)
  | '+' :: rest => step (false, rest)
  | cs => step (false, cs)

/-- Whether rows form a rectangular (non-ragged) nested list. -/
def uniformRows {α : Type} : List (List α) → Bool
  | [] => true
  | r :: rs => rs.all (fun q => q.length == r.length)

/-- np.array(rows, dtype=float) on a nested list of strings: the shape is
determined first (a ragged nesting raises ValueError), then every component
is converted with float() (raising ValueError when unparsable). -/
def np_array_float (rows : List (List String)) : Except PErr (List (List Rat)) :=
  if uniformRows rows then
    exMapM (fun r => exMapM (fun c =>
      match parseFloat? c with
      | some v => .ok v
      | none => .error PErr.valErr) r) rows
  else .error PErr.valErr

/-- Python str.split with a one-character separator on a character list:
adjacent separators and separators at the ends yield empty pieces. -/
def splitChar (sep : Char) : List Char → List (List Char)
  | [] => [[]]
  | c :: rest =>
    if c == sep then [] :: splitChar sep rest
    else
      match splitChar sep rest with
      | [] => [[c]]
      | piece :: more => (c :: piece) :: more

/-- Python str.split with a one-character separator. -/
def splitStr (sep : Char) (s : String) : List String :=
  (splitChar sep s.data).map String.mk

/-- The split of a points attribute string: on semicolons, then on commas. -/
def splitPoints (s : String) : List (List String) :=
  (splitStr ';' s).map (fun coord => splitStr ',' coord)

/-- The attribute input types (AttributeEnum). -/
inductive AttrTy where
  | checkbox
  | text
  | radio
  | number
  | select
deriving DecidableEq, Repr

/-- AttributeEnum lookup by name; none models the KeyError for unknown names. -/
def attrTyOf (s : String) : Option AttrTy :=
  if s == "checkbox" then some .checkbox
  else if s == "text" then some .text
  else if s == "radio" then some .radio
  else if s == "number" then some .number
  else if s == "select" then some .select
  else none

/-- A parsed Attribute of the meta section. -/
structure PAttr where
  name : Option String
  input_type : AttrTy
  values : Option String
  default_value : String
deriving DecidableEq, Repr

/-- A parsed Label of the meta section. -/
structure PLabel where
  name : Option String
  attributes : List PAttr := []
deriving DecidableEq, Repr

/-- A parsed Task of the meta section. -/
structure PTask where
  id : Int
  name : Option String
  size : Int
  mode : Option String
  overlap : Int
  created : Option String
  updated : Option String := none
  bugtracker : Option String := none
  flipped : Bool := false
  labels : List PLabel := []
deriving DecidableEq, Repr

/-- The annotation kinds recognised by the parser (AnnotationEnum). -/
inductive AnnKind where
  | polygon
  | polyline
  | points
  | box
deriving DecidableEq, Repr

/-- AnnotationEnum lookup by tag name; none models the KeyError for unmapped
tags. -/
def annKindOf (s : String) : Option AnnKind :=
  if s == "polygon" then some .polygon
  else if s == "polyline" then some .polyline
  else if s == "points" then some .points
  else if s == "box" then some .box
  else none

/-- A parsed annotation of an image. -/
structure PAnn where
  kind : AnnKind
  label : String
  occluded : Option String := none
  z_order : Option String := none
  points : List (List Rat) := []
  attributes : List (Option String × Option String) := []
deriving DecidableEq, Repr

/-- A parsed image. -/
structure PImage where
  id : Int
  name : String
  width : Int
  height : Int
  anns : List PAnn := []
deriving DecidableEq, Repr

/-- The whole parsed document (the fields CVAT_XML fills in). -/
structure CvatDoc where
  version : Option String
  tasks : List PTask
  images : List PImage
deriving DecidableEq, Repr

/-- int() applied to the text of a metadata child: None raises TypeError, an
unparsable string raises ValueError. -/
def pyIntOfText (v : Option String) : Except PErr Int :=
  match v with
  | none => .error .typeErr
  | some s =>
    match parseInt? s with
    | some n => .ok n
    | none => .error .valErr

/-- int() applied to an element attribute value (always a string). -/
def pyIntOfStr (s : String) : Except PErr Int :=
  match parseInt? s with
  | some n => .ok n
  | none => .error .valErr

/-- Attribute.__init__ from the child-tag/text keyword dict: the three
positional parameters must be present, input_type must be a known enum name
(None fails the isinstance assertion), and the default value falls back to
the first character of the values string. -/
def mkAttr (kw : List (String × Option String)) : Except PErr PAttr :=
  if ((kwLookup kw "name").isSome ∧ (kwLookup kw "input_type").isSome ∧
      (kwLookup kw "values").isSome) then
    match kwLookup kw "input_type" with
    | some (some s) =>
      (match attrTyOf s with
       | none => .error .keyErr
       | some ty =>
         let values := (kwLookup kw "values").getD none
         match (kwLookup kw "default_value").getD none with
         | some d => .ok { name := (kwLookup kw "name").getD none, input_type := ty,
                           values := values, default_value := d }
         | none =>
           match values with
           | none => .error .typeErr
           | some vs =>
             match vs.data with
             | [] => .error .idxErr
             | c :: _ => .ok { name := (kwLookup kw "name").getD none, input_type := ty,
                               values := values, default_value := String.mk [c] })
    | _ => .error .assertErr
  else .error .typeErr

/-- Task.__init__ from the child-tag/text keyword dict: six positional
parameters must be present, id/size/overlap are converted with int(), and a
flipped string other than true/false raises ValueError (a flipped element
without text keeps the raw non-string value in Python; no claim depends on
it, modelled as the default). -/
def mkTask (kw : List (String × Option String)) : Except PErr PTask :=
  if ((kwLookup kw "id").isSome ∧ (kwLookup kw "name").isSome ∧
      (kwLookup kw "size").isSome ∧ (kwLookup kw "mode").isSome ∧
      (kwLookup kw "overlap").isSome ∧ (kwLookup kw "created").isSome) then
    match pyIntOfText ((kwLookup kw "id").getD none) with
    | .error e => .error e
    | .ok tid =>
      match pyIntOfText ((kwLookup kw "size").getD none) with
      | .error e => .error e
      | .ok tsize =>
        match pyIntOfText ((kwLookup kw "overlap").getD none) with
        | .error e => .error e
        | .ok tovl =>
          let base : PTask :=
            { id := tid, name := (kwLookup kw "name").getD none, size := tsize,
              mode := (kwLookup kw "mode").getD none, overlap := tovl,
              created := (kwLookup kw "created").getD none,
              updated := (kwLookup kw "updated").getD none,
              bugtracker := (kwLookup kw "bugtracker").getD none }
          match kwLookup kw "flipped" with
          | none => .ok base
          | some none => .ok base
          | some (some s) =>
            if s.toLower == "true" then .ok { base with flipped := true }
            else if s.toLower == "false" then .ok { base with flipped := false }
            else .error .valErr
  else .error .typeErr

/-- Image.__init__ from the element attributes: four positional parameters
must be present and id/width/height are converted with int(). -/
def mkImage (attrs : List (String × String)) : Except PErr PImage :=
  match kwLookup attrs "id", kwLookup attrs "name",
        kwLookup attrs "width", kwLookup attrs "height" with
  | some iid, some nm, some iw, some ih =>
    (match pyIntOfStr iid with
     | .error e => .error e
     | .ok vid =>
       match pyIntOfStr iw with
       | .error e => .error e
       | .ok vw =>
         match pyIntOfStr ih with
         | .error e => .error e
         | .ok vh => .ok { id := vid, name := nm, width := vw, height := vh })
  | _, _, _, _ => .error .typeErr

/-- Annotation.__init__ from the element attributes: the label parameter must
be present; a non-empty points string is split and converted as a float
array; otherwise a box with the four corner attributes builds its two-point
array from them (failing floats raise); otherwise the point array is empty. -/
def mkAnn (ty : AnnKind) (attrs : List (String × String)) : Except PErr PAnn :=
  match kwLookup attrs "label" with
  | none => .error .typeErr
  | some lab =>
    let base : PAnn :=
      { kind := ty, label := lab, occluded := kwLookup attrs "occluded",
        z_order := kwLookup attrs "z_order" }
    match kwLookup attrs "points" with
    | some s =>
      if s.length > 0 then
        match np_array_float (splitPoints s) with
        | .error e => .error e
        | .ok pts => .ok { base with points := pts }
      else .ok base
    | none =>
      match ty, kwLookup attrs "xtl", kwLookup attrs "ytl",
            kwLookup attrs "xbr", kwLookup attrs "ybr" with
      | .box, some xtl, some ytl, some xbr, some ybr =>
        (match np_array_float [[xtl, ytl], [xbr, ybr]] with
         | .error e => .error e
         | .ok pts => .ok { base with points := pts })
      | _, _, _, _, _ => .ok base

/-- The label loop of CVAT_XML._parse_metadata for one task element. -/
def parseLabels (taskTag : XmlElem) : Except PErr (List PLabel) :=
  exMapM (fun lt =>
    match findChild lt "name" with
    | none => .error .attrErr
    | some ne =>
      match exMapM (fun atag => mkAttr (atag.children.map (fun n => (n.tag, n.text))))
              (iterTag "attribute" lt) with
      | .error e => .error e
      | .ok attrs => .ok { name := ne.text, attributes := attrs })
    (iterTag "label" taskTag)

/-- CVAT_XML._parse_metadata: every task descendant yields a Task with its
labels. -/
def parseMeta (root : XmlElem) : Except PErr (List PTask) :=
  exMapM (fun taskTag =>
    match mkTask (taskTag.children.map (fun n => (n.tag, n.text))) with
    | .error e => .error e
    | .ok t =>
      match parseLabels taskTag with
      | .error e => .error e
      | .ok labels => .ok { t with labels := labels })
    (iterTag "task" root)

/-- The per-child annotation step of CVAT_XML._parse_images: the tag must be a
known annotation kind, the annotation is built from the element attributes,
and nested attribute elements become (name, text) pairs. -/
def parseAnnChild (annTag : XmlElem) : Except PErr PAnn :=
  match annKindOf annTag.tag with
  | none => .error .keyErr
  | some ty =>
    match mkAnn ty annTag.attrs with
    | .error e => .error e
    | .ok a =>
      .ok { a with attributes :=
              (iterTag "attribute" annTag).map (fun q => (kwLookup q.attrs "name", q.text)) }

/-- CVAT_XML._parse_images: every image descendant yields an Image with the
annotations built from its direct children. -/
def parseImages (root : XmlElem) : Except PErr (List PImage) :=
  exMapM (fun imgTag =>
    match mkImage imgTag.attrs with
    | .error e => .error e
    | .ok img =>
      match exMapM parseAnnChild imgTag.children with
      | .error e => .error e
      | .ok anns => .ok { img with anns := anns })
    (iterTag "image" root)

/-- CVAT_XML.parse_xml: the version element must exist as a direct child
(.text on the None returned by find raises AttributeError), then the metadata
pass, then the image pass. -/
def parse_xml (root : XmlElem) : Except PErr CvatDoc :=
  match findChild root "version" with
  | none => .error .attrErr
  | some v =>
    match parseMeta root with
    | .error e => .error e
    | .ok tasks =>
      match parseImages root with
      | .error e => .error e
      | .ok images => .ok { version := v.text, tasks := tasks, images := images }

/-! ## Definitions taken from the words of the spec, for comparison -/

/-- Cross-product sum of the shoelace formula, closing the polygon back to
the first vertex. -/
def shoeSum (first : Rat × Rat) : List (Rat × Rat) → Rat
  | [] => 0
  | [p] => p.1 * first.2 - first.1 * p.2
  | p :: q :: rest => (p.1 * q.2 - q.1 * p.2) + shoeSum first (q :: rest)

/-- Modelled from the spec: the shoelace-formula area of a polygon given by
its vertex pairs. Stated only to express what the claim asserts about the
area of rule 2 of the segmentation tie-break. -/
def shoelaceArea (ps : List (Rat × Rat)) : Rat :=
  match ps with
  | [] => 0
  | p :: _ => |shoeSum p ps| / 2

/-- The keypoints array as the claim words it: the concatenation, in point
order, of one (x, y, visibilityCode) triple per point. -/
def specKeypoints : List (Rat × Rat) → List Vis → List Rat
  | [], _ => []
  | _ :: _, [] => []
  | p :: ps, v :: vs => [p.1, p.2, v.value] ++ specKeypoints ps vs

/-! ## Concrete inputs for witnesses and counterexamples -/

/-- A box grouped (group 1) with a polygon, not crowd-flagged. -/
def c1Box : CocoAnn :=
  { type := .bbox, group := some 1, label := some "0", x := 0, y := 0, w := 10, h := 10 }

/-- A triangle polygon of shoelace area 2, co-grouped with c1Box. -/
def c1Poly : CocoAnn :=
  { type := .polygon, group := some 1, label := some "0", points := [0, 0, 2, 0, 0, 2] }

/-- The item holding c1Box and c1Poly. -/
def c1Item : CocoItem := { id := some "1", anns := [c1Box, c1Poly] }

/-- A crowd-flagged box grouped (group 2) with a mask. -/
def c1CrowdBox : CocoAnn :=
  { type := .bbox, group := some 2, label := some "0",
    attributes := [("is_crowd", AttrVal.b true)], x := 0, y := 0, w := 2, h := 2 }

/-- A 2 x 2 mask with three foreground pixels, co-grouped with c1CrowdBox. -/
def c1Mask : CocoAnn :=
  { type := .mask, group := some 2, mask := [[true, false], [true, true]] }

/-- The item holding c1CrowdBox and c1Mask. -/
def c1CrowdItem : CocoItem := { id := some "1", anns := [c1CrowdBox, c1Mask] }

/-- A box annotation carrying the stable source id 5. -/
def c2A : CocoAnn := { type := .bbox, id := some 5, label := some "0" }

/-- A box annotation carrying no source id. -/
def c2B : CocoAnn := { type := .bbox, label := some "0" }

/-- The item holding c2A and c2B. -/
def c2Item : CocoItem := { id := some "1", anns := [c2A, c2B] }

/-- A 3-point annotation with visibility visible, hidden, absent. -/
def c5Ann : CocoAnn :=
  { type := .points, label := some "0",
    points := [0, 0, 1, 1, 2, 2], visibility := [.visible, .hidden, .absent] }

/-- The item holding only c5Ann. -/
def c5Item : CocoItem := { id := some "1", anns := [c5Ann] }

/-- An ungrouped single-point annotation. -/
def c5cAnn : CocoAnn :=
  { type := .points, label := some "0", points := [10, 10], visibility := [.visible] }

/-- An ungrouped box with the same label as c5cAnn. -/
def c5cBox : CocoAnn :=
  { type := .bbox, label := some "0", x := 0, y := 0, w := 5, h := 5 }

/-- The item holding c5cAnn and c5cBox. -/
def c5cItem : CocoItem := { id := some "1", anns := [c5cAnn, c5cBox] }

/-- The label side of a dataset with labels cat and dog. -/
def c6Labels : List LabelCat := [{ name := "cat" }, { name := "dog" }]

/-- A points-category side table for label index 1. -/
def c6Kp : List (Nat × KpCat) := [(1, { labels := ["nose", "tail"], adjacent := [0, 1] })]

/-- The dataset with labels cat and dog and the side table c6Kp. -/
def c6Data : Dataset := { labelCats := some c6Labels, pointsCats := some c6Kp }

/-- A document with a version element but no task and no image element. -/
def c7Root : XmlElem :=
  .mk "annotations" [] none [.mk "version" [] (some "1.1") []]

/-- A points element whose points attribute has a single 3-component piece. -/
def c8Ann : XmlElem :=
  .mk "points" [("label", "p"), ("points", "1,2,3")] none []

/-- The image element holding c8Ann. -/
def c8Img : XmlElem :=
  .mk "image" [("id", "1"), ("name", "f.png"), ("width", "10"), ("height", "10")]
    none [c8Ann]

/-- A document whose only annotation has the uniformly 3-component points
string. -/
def c8Root : XmlElem :=
  .mk "annotations" [] none [.mk "version" [] (some "1.1") [], c8Img]

/-- A box element with a non-numeric points component. -/
def c8BadAnn : XmlElem :=
  .mk "box" [("label", "p"), ("points", "a,b")] none []

/-- The image element holding c8BadAnn. -/
def c8BadImg : XmlElem :=
  .mk "image" [("id", "1"), ("name", "f.png"), ("width", "10"), ("height", "10")]
    none [c8BadAnn]

/-- A document whose only annotation has a non-numeric points component. -/
def c8BadRoot : XmlElem :=
  .mk "annotations" [] none [.mk "version" [] (some "1.1") [], c8BadImg]

/-- An item with one image and no annotations at all. -/
def c9Item : CocoItem := { id := some "1" }

/-- An annotation with a label reference that does not convert to an integer. -/
def c10Box : CocoAnn := { type := .bbox, label := none, x := 0, y := 0, w := 3, h := 4 }

/-- A points annotation with an unconvertible label reference. -/
def c10Pts : CocoAnn := { type := .points, label := some "x", points := [1, 1] }

/-- The item holding c10Box and c10Pts. -/
def c10Item : CocoItem := { id := some "1", anns := [c10Box, c10Pts] }

/-- Whether every component of a nested string list parses as a float. -/
def allNumeric (rows : List (List String)) : Bool :=
  rows.all (fun r => r.all (fun c => (parseFloat? c).isSome))

/-- A child element of an image whose points attribute is present, non-empty
and fails the float-array conversion. -/
def badPoints (c : XmlElem) : Prop :=
  ∃ s, kwLookup c.attrs "points" = some s ∧ s.length > 0 ∧
    ∃ e, np_array_float (splitPoints s) = .error e

/-- A document without a version element. -/
def c7NoVer : XmlElem := .mk "annotations" [] none []

/-! ## Theorems -/

/-- C2 (code bug): in one document holding a box with stable source id 5
followed by a box without an id, the write step assigns the fresh record the
id 5 as well, because _get_ann_id advances the running counter only to the
maximum id seen, not past it; two emitted records share the id 5, while the
claim promises collision-free ids. -/
theorem ann_id_collision_bug :
    (writeAnns (instSaveAnns c2Item {})).map (fun e => e.id) = [some 5, some 5] := by
  decide

/-- C1 (amended): the tie-break of the instances converter, as implemented:
(1) a grouped, crowd-flagged box with a co-grouped mask gets the run-length
encoding of the mask, the foreground pixel count as area, and iscrowd 1;
(2) a grouped box that is not crowd-flagged with a co-grouped polygon gets
the point sequence of the polygon as segmentation, the area of the box
itself (width times height, not the shoelace area of the polygon), and
iscrowd 0; (3) in every other case the segmentation is the 4-point rectangle
of the own corners of the box, the area is width times height, and iscrowd
is 0. -/
theorem instances_tiebreak_amended (item : CocoItem) (ann : CocoAnn) (annId : Option Nat) :
    (∀ g m, ann.group = some g → isCrowdOf ann = true →
       findAnn item.anns (coMask g) = some m →
       (instElem item ann annId).segmentation = some (Seg.rle (convert_mask_to_rle m.mask)) ∧
       (instElem item ann annId).area = some ((maskArea m.mask : Rat)) ∧
       (instElem item ann annId).iscrowd = some 1) ∧
    (∀ g p, ann.group = some g → isCrowdOf ann = false →
       findAnn item.anns (coPolygon g) = some p →
       (instElem item ann annId).segmentation = some (Seg.polys [p.points]) ∧
       (instElem item ann annId).area = some (bboxArea ann) ∧
       (instElem item ann annId).iscrowd = some 0) ∧
    ((∀ g, ann.group = some g →
        (isCrowdOf ann = true → findAnn item.anns (coMask g) = none) ∧
        (isCrowdOf ann = false → findAnn item.anns (coPolygon g) = none)) →
       (instElem item ann annId).segmentation = some (Seg.polys [bboxPolygonOf ann]) ∧
       (instElem item ann annId).area = some (bboxArea ann) ∧
       (instElem item ann annId).iscrowd = some 0) := by
  refine ⟨?_, ?_, ?_⟩
  · intro g m hg hc hf
    simp [instElem, instSeg, hg, hc, hf]
  · intro g p hg hc hf
    simp [instElem, instSeg, hg, hc, hf]
  · intro h
    cases hg : ann.group with
    | none => simp [instElem, instSeg, hg]
    | some g =>
      cases hc : isCrowdOf ann with
      | true => simp [instElem, instSeg, hg, hc, (h g hg).1 hc]
      | false => simp [instElem, instSeg, hg, hc, (h g hg).2 hc]

/-- C1 witness: rule 1 applied to the crowd-flagged box grouped with a 2 x 2
mask of three foreground pixels. -/
theorem instances_tiebreak_witness :
    (instElem c1CrowdItem c1CrowdBox none).segmentation
        = some (Seg.rle (convert_mask_to_rle c1Mask.mask)) ∧
    (instElem c1CrowdItem c1CrowdBox none).area = some ((maskArea c1Mask.mask : Rat)) ∧
    (instElem c1CrowdItem c1CrowdBox none).iscrowd = some 1 :=
  (instances_tiebreak_amended c1CrowdItem c1CrowdBox none).1 2 c1Mask rfl (by decide)
    (by decide)

/-- C1 counterexample: a box of width and height 10 co-grouped with a
triangle polygon whose shoelace area is 2. The claim says the emitted area
is the shoelace area of the polygon; the emitted record carries the area of
the box, 100. -/
theorem instances_tiebreak_cex :
    (instElem c1Item c1Box none).segmentation = some (Seg.polys [[0, 0, 2, 0, 0, 2]]) ∧
    (instElem c1Item c1Box none).area = some 100 ∧
    shoelaceArea (toPairs c1Poly.points) = 2 ∧ ((100 : Rat) = 2 → False) := by
  have hg : c1Box.group = some 1 := rfl
  have hf : findAnn c1Item.anns (coPolygon 1) = some c1Poly := by decide
  have hc : isCrowdOf c1Box = false := by decide
  have hp : c1Poly.points = [0, 0, 2, 0, 0, 2] := rfl
  refine ⟨?_, ?_, ?_, by norm_num⟩
  · simp [instElem, instSeg, hg, hc, hf, hp]
  · simp [instElem, instSeg, hg, hc, hf]
    norm_num [bboxArea, c1Box]
  · norm_num [c1Poly, toPairs, shoelaceArea, shoeSum]

/-- C4: the cleanup job deletes the archive exactly when it still exists and
its creation time equals the captured value; a replaced archive with a
different creation time is left untouched, and a missing archive stays
missing. -/
theorem cleanup_guard (fs : Option ArchFile) (T : Nat) :
    (∀ a, fs = some a → (clear_export_cache T fs = none ↔ a.ctime = T)) ∧
    (∀ a, fs = some a → a.ctime ≠ T → clear_export_cache T fs = fs) ∧
    (fs = none → clear_export_cache T fs = fs) := by
  refine ⟨?_, ?_, ?_⟩
  · intro a ha
    subst ha
    by_cases h : a.ctime = T
    · simp [clear_export_cache, h]
    · simp [clear_export_cache, h]
  · intro a ha hne
    subst ha
    simp [clear_export_cache, hne]
  · intro h
    subst h
    rfl

/-- C4 witness: a cleanup job capturing creation time 7 leaves the archive
with creation time 5 untouched. -/
theorem cleanup_guard_witness :
    clear_export_cache 7 (some ⟨3, 5⟩) = some ⟨3, 5⟩ :=
  (cleanup_guard (some ⟨3, 5⟩) 7).2.1 ⟨3, 5⟩ rfl (by decide)

/-- C3: the cheap path of export_project triggers exactly when the archive
exists with modification time at least the task last-modified time; a second
request without task modification returns the same path without rebuilding
and leaves the archive untouched; and a task last-modified update past the
archive modification time forces a rebuild on the next request. -/
theorem isFresh_some (t n : Nat) (a : ArchFile) :
    isFresh t ⟨some a, n⟩ = decide (t ≤ a.mtime) := by
  by_cases h : t ≤ a.mtime <;> simp [isFresh, h]

theorem isFresh_true_iff (t : Nat) (st : CacheState) :
    isFresh t st = true ↔ ∃ a, st.archive = some a ∧ t ≤ a.mtime := by
  obtain ⟨arch, n⟩ := st
  cases arch with
  | none => simp [isFresh]
  | some a => simp [isFresh_some]

theorem export_project_fresh (cd fmt : String) (tt : Nat) (st : CacheState)
    (h : isFresh tt st = true) :
    export_project cd fmt tt st = ⟨archivePath cd fmt, false, st, none⟩ := by
  simp [export_project, h]

theorem export_project_stale (cd fmt : String) (tt : Nat) (st : CacheState)
    (h : isFresh tt st = false) :
    export_project cd fmt tt st =
      ⟨archivePath cd fmt, true, ⟨some ⟨st.now, st.now⟩, st.now⟩, some st.now⟩ := by
  simp [export_project, h]

theorem export_cache_freshness (cd fmt : String) (tt tt2 n2 : Nat) (st : CacheState)
    (hnow : tt ≤ st.now) :
    ((export_project cd fmt tt st).rebuilt = false ↔
       ∃ a, st.archive = some a ∧ tt ≤ a.mtime) ∧
    ((export_project cd fmt tt ⟨(export_project cd fmt tt st).state.archive, n2⟩).path
        = (export_project cd fmt tt st).path ∧
     (export_project cd fmt tt ⟨(export_project cd fmt tt st).state.archive, n2⟩).rebuilt
        = false ∧
     (export_project cd fmt tt ⟨(export_project cd fmt tt st).state.archive, n2⟩).state.archive
        = (export_project cd fmt tt st).state.archive) ∧
    (∀ a, (export_project cd fmt tt st).state.archive = some a → a.mtime < tt2 →
       (export_project cd fmt tt2 ⟨some a, n2⟩).rebuilt = true) := by
  cases hf1 : isFresh tt st with
  | true =>
    obtain ⟨a0, ha0, hm0⟩ := (isFresh_true_iff tt st).mp hf1
    have hf2 : isFresh tt ⟨st.archive, n2⟩ = true := hf1
    refine ⟨?_, ?_, ?_⟩
    · simp [export_project_fresh cd fmt tt st hf1]
      exact ⟨a0, ha0, hm0⟩
    · simp [export_project_fresh cd fmt tt st hf1,
        export_project_fresh cd fmt tt ⟨st.archive, n2⟩ hf2]
    · intro a ha hlt
      have hs : isFresh tt2 (⟨some a, n2⟩ : CacheState) = false := by
        simp [isFresh_some]
        omega
      simp [export_project_stale cd fmt tt2 ⟨some a, n2⟩ hs]
  | false =>
    have hf2 : isFresh tt (⟨some ⟨st.now, st.now⟩, n2⟩ : CacheState) = true := by
      simp [isFresh_some]
      exact hnow
    refine ⟨?_, ?_, ?_⟩
    · simp [export_project_stale cd fmt tt st hf1]
      intro a ha
      by_contra hlt2
      have hle : tt ≤ a.mtime := by omega
      have hcontra : isFresh tt st = true := (isFresh_true_iff tt st).mpr ⟨a, ha, hle⟩
      rw [hf1] at hcontra
      cases hcontra
    · simp [export_project_stale cd fmt tt st hf1,
        export_project_fresh cd fmt tt ⟨some ⟨st.now, st.now⟩, n2⟩ hf2]
    · intro a ha hlt
      have hs : isFresh tt2 (⟨some a, n2⟩ : CacheState) = false := by
        simp [isFresh_some]
        omega
      simp [export_project_stale cd fmt tt2 ⟨some a, n2⟩ hs]

/-- C3 witness: after a rebuild at clock 20, a task update to time 30 makes
the next request rebuild. -/
theorem export_cache_freshness_witness :
    (export_project "c" "coco" 30 ⟨some ⟨20, 20⟩, 25⟩).rebuilt = true :=
  (export_cache_freshness "c" "coco" 10 30 25 ⟨none, 20⟩ (by decide)).2.2 ⟨20, 20⟩
    (by decide) (by decide)

theorem buildKeypoints_eq_spec :
    ∀ (vis : List Vis) (pts : List Rat), pts.length = 2 * vis.length →
      buildKeypoints pts vis = specKeypoints (toPairs pts) vis := by
  intro vis
  induction vis with
  | nil =>
    intro pts h
    match pts with
    | [] => rfl
    | a :: t => simp at h
  | cons v vs ih =>
    intro pts h
    match pts with
    | [] => simp at h
    | [a] => simp at h; omega
    | a :: b :: rest =>
      have hlen : rest.length = 2 * vs.length := by
        simp at h
        omega
      simp [buildKeypoints, toPairs, specKeypoints]
      exact ih rest hlen

theorem boxValsOf_pointsGetBbox (pts : List Rat) :
    [(boxValsOf (pointsGetBbox pts)).x, (boxValsOf (pointsGetBbox pts)).y,
     (boxValsOf (pointsGetBbox pts)).w, (boxValsOf (pointsGetBbox pts)).h]
      = pointsGetBbox pts := by
  cases h : toPairs pts with
  | nil => simp [pointsGetBbox, h, boxValsOf]
  | cons p rest => simp [pointsGetBbox, h, boxValsOf]

/-- C5 (amended): the keypoints converter emits the concatenation of one
(x, y, visibilityCode) triple per point in point order with codes 0 absent,
1 hidden, 2 visible; num_keypoints counts the visible points; and when the
box lookup (same group field, box type, same label, where two annotations
both without a group also match) finds nothing, the bbox is synthesized from
the extrema of the own points. -/
theorem keypoints_amended (item : CocoItem) (ann : CocoAnn) (annId : Option Nat)
    (hpar : ann.points.length = 2 * ann.visibility.length) :
    (kpElem item ann annId).keypoints
        = some (specKeypoints (toPairs ann.points) ann.visibility) ∧
    (kpElem item ann annId).num_keypoints
        = some ((ann.visibility.filter (fun v => v == Vis.visible)).length) ∧
    (findAnn item.anns (sameGroupLabelBbox ann) = none →
       (kpElem item ann annId).bbox = some (pointsGetBbox ann.points)) := by
  refine ⟨?_, rfl, ?_⟩
  · have hb := buildKeypoints_eq_spec ann.visibility ann.points hpar
    simp [kpElem, hb]
  · intro hf
    simp [kpElem, hf, boxValsOf_pointsGetBbox]

/-- C5 witness: the 3-point annotation with visibility visible, hidden,
absent yields the 9-element keypoints array with codes 2, 1, 0 in point
order and num_keypoints 1. -/
theorem keypoints_amended_witness :
    (kpElem c5Item c5Ann none).keypoints
        = some (specKeypoints (toPairs c5Ann.points) c5Ann.visibility) ∧
    specKeypoints (toPairs c5Ann.points) c5Ann.visibility = [0, 0, 2, 1, 1, 1, 2, 2, 0] ∧
    (kpElem c5Item c5Ann none).num_keypoints = some 1 := by
  have h := keypoints_amended c5Item c5Ann none (by decide)
  refine ⟨h.1, by decide, ?_⟩
  rw [h.2.1]
  decide

/-- C5 counterexample: the single-point annotation and the box both carry no
groupId, so no co-grouped box of the same label exists and the claim requires
the bbox to be synthesized from the point extrema [10, 10, 0, 0]; the lookup
of the code compares the group fields directly, matches the ungrouped box,
and the record carries the box [0, 0, 5, 5]. -/
theorem keypoints_bbox_cex :
    c5cAnn.group = none ∧ c5cBox.group = none ∧ c5cAnn.label = c5cBox.label ∧
    (kpElem c5cItem c5cAnn none).bbox = some [0, 0, 5, 5] ∧
    pointsGetBbox c5cAnn.points = [10, 10, 0, 0] ∧
    (([0, 0, 5, 5] : List Rat) = [10, 10, 0, 0] → False) := by
  have hf : findAnn c5cItem.anns (sameGroupLabelBbox c5cAnn) = some c5cBox := by decide
  refine ⟨rfl, rfl, rfl, ?_, ?_, by decide⟩
  · simp [kpElem, hf, c5cBox]
  · simp [c5cAnn, pointsGetBbox, toPairs, ratMin, ratMax]

theorem kpCatsLoop_spec (li : List LabelCat) :
    ∀ (pcs : List (Nat × KpCat)) (cats : List CatRec),
      kpCatsLoop li pcs = some cats →
      cats.length = pcs.length ∧
      ∀ (j idx : Nat) (kp : KpCat), pcs[j]? = some (idx, kp) →
        ∃ lc, li[idx]? = some lc ∧
          cats[j]? = some { id := 1 + idx, name := lc.name, supercategory := lc.parent,
                            keypoints := some kp.labels, skeleton := some kp.adjacent } := by
  intro pcs
  induction pcs with
  | nil =>
    intro cats h
    simp [kpCatsLoop] at h
    subst h
    simp
  | cons hd tl ih =>
    intro cats h
    obtain ⟨idx0, kp0⟩ := hd
    simp only [kpCatsLoop] at h
    cases hli : li[idx0]? with
    | none =>
      rw [hli] at h
      cases h
    | some lc =>
      rw [hli] at h
      cases hrec : kpCatsLoop li tl with
      | none =>
        rw [hrec] at h
        cases h
      | some cs =>
        rw [hrec] at h
        simp at h
        subst h
        obtain ⟨ihlen, ihget⟩ := ih cs hrec
        constructor
        · simp [ihlen]
        · intro j idx kp hj
          cases j with
          | zero =>
            simp at hj
            obtain ⟨h1, h2⟩ := hj
            subst h1
            subst h2
            exact ⟨lc, hli, by simp⟩
          | succ j =>
            simp at hj ⊢
            exact ihget j idx kp hj

/-- C6: exported category ids are 1 + the 0-based label position and never 0,
with the label name attached; labels cat and dog export exactly the pairs
(1, cat) and (2, dog); keypoint categories take the keypoint-name sequence
and the skeleton from the points side table entry and the label at the same
index. -/
theorem category_numbering :
    (∀ (d : Dataset) (c : CatRec), c ∈ instCats d → 1 ≤ c.id) ∧
    (∀ (labels : List LabelCat) (i : Nat) (lc : LabelCat) (d : Dataset),
       d.labelCats = some labels → labels[i]? = some lc →
       (instCats d)[i]? = some { id := 1 + i, name := lc.name, supercategory := lc.parent }) ∧
    ((instCats c6Data).map (fun c => (c.id, c.name)) = [(1, "cat"), (2, "dog")]) ∧
    (∀ (li : List LabelCat) (pcs : List (Nat × KpCat)) (cats : List CatRec),
       kpCatsLoop li pcs = some cats →
       cats.length = pcs.length ∧
       ∀ (j idx : Nat) (kp : KpCat), pcs[j]? = some (idx, kp) →
         ∃ lc, li[idx]? = some lc ∧
           cats[j]? = some { id := 1 + idx, name := lc.name, supercategory := lc.parent,
                             keypoints := some kp.labels, skeleton := some kp.adjacent }) := by
  refine ⟨?_, ?_, by decide, fun li pcs cats h => kpCatsLoop_spec li pcs cats h⟩
  · intro d c hc
    cases hld : d.labelCats with
    | none => simp [instCats, hld] at hc
    | some items =>
      rw [instCats, hld] at hc
      simp at hc
      obtain ⟨i, a, hmem, hfc⟩ := hc
      subst hfc
      simp
  · intro labels i lc d hld hl
    simp [instCats, hld, List.getElem?_map, List.getElem?_enum, hl]

/-- C6 witness: the first exported category of the cat/dog task is id 1 with
name cat. -/
theorem category_numbering_witness :
    (instCats c6Data)[0]? = some { id := 1, name := "cat", supercategory := "" } :=
  category_numbering.2.1 c6Labels 0 { name := "cat" } c6Data rfl (by decide)

/-- C7 (amended): a document without a version element fails the parse
(attribute error on the missing element, no model); documents without task
or image elements do not fail — the parse succeeds with empty task and image
collections. -/
theorem parse_required_amended (root : XmlElem) :
    (findChild root "version" = none → parse_xml root = .error .attrErr) ∧
    (∀ v, findChild root "version" = some v → iterTag "task" root = [] →
       iterTag "image" root = [] →
       parse_xml root = .ok { version := v.text, tasks := [], images := [] }) := by
  constructor
  · intro h
    simp [parse_xml, h]
  · intro v hv ht hi
    simp [parse_xml, hv, parseMeta, ht, parseImages, hi, exMapM]

/-- C7 witness: the document without a version element fails with the
attribute error. -/
theorem parse_required_witness :
    parse_xml c7NoVer = .error .attrErr :=
  (parse_required_amended c7NoVer).1 rfl

/-- C7 counterexample: the document with a version element but no task and no
image element parses successfully and produces a model, though the claim
requires a MalformedDocumentError for the missing task and image elements. -/
theorem parse_required_cex :
    parse_xml c7Root = .ok { version := some "1.1", tasks := [], images := [] } := by
  rfl

theorem getAnnId_anns (a : CocoAnn) (c : TaskConv) : ((getAnnId a c).2).anns = c.anns := by
  cases h : a.id with
  | none => simp [getAnnId, h]
  | some n =>
    simp only [getAnnId, h]
    split <;> rfl

theorem instFold_length (item : CocoItem) :
    ∀ (l : List CocoAnn) (c : TaskConv),
      (instFold item l c).anns.length =
        c.anns.length + (l.filter (fun a => a.type == AnnType.bbox)).length := by
  intro l
  induction l with
  | nil => intro c; simp [instFold]
  | cons a t ih =>
    intro c
    cases hb : (a.type == AnnType.bbox) with
    | true =>
      simp only [instFold, hb, if_pos]
      rw [ih]
      simp [getAnnId_anns, List.filter_cons, hb]
      omega
    | false =>
      simp only [instFold, hb]
      rw [if_neg (by simp)]
      rw [ih]
      simp [List.filter_cons, hb]

theorem kpFold_length (item : CocoItem) :
    ∀ (l : List CocoAnn) (c : TaskConv),
      (kpFold item l c).anns.length =
        c.anns.length + (l.filter (fun a => a.type == AnnType.points)).length := by
  intro l
  induction l with
  | nil => intro c; simp [kpFold]
  | cons a t ih =>
    intro c
    cases hb : (a.type == AnnType.points) with
    | true =>
      simp only [kpFold, hb, if_pos]
      rw [ih]
      simp [getAnnId_anns, List.filter_cons, hb]
      omega
    | false =>
      simp only [kpFold, hb]
      rw [if_neg (by simp)]
      rw [ih]
      simp [List.filter_cons, hb]

/-- C10: an absent or unconvertible label reference yields category_id 0 in
the records of the instances and keypoints converters (the default -1 of the
cast, plus 1), and a record is still emitted for every box or points
annotation of the item. -/
theorem fallback_category_zero (item : CocoItem) (ann : CocoAnn) (annId : Option Nat)
    (c : TaskConv) (hlab : labelCast ann.label = none) :
    (instElem item ann annId).category_id = 0 ∧
    (kpElem item ann annId).category_id = 0 ∧
    (instSaveAnns item c).anns.length =
      c.anns.length + (item.anns.filter (fun a => a.type == AnnType.bbox)).length ∧
    (kpSaveAnns item c).anns.length =
      c.anns.length + (item.anns.filter (fun a => a.type == AnnType.points)).length := by
  refine ⟨?_, ?_, instFold_length item item.anns c, kpFold_length item item.anns c⟩
  · simp [instElem, castLabelD, hlab]
  · simp [kpElem, castLabelD, hlab]

/-- C10 witness: the item with a label-less box and an unconvertible points
label; both converters emit their records with category_id 0. -/
theorem fallback_category_zero_witness :
    (instElem c10Item c10Box none).category_id = 0 ∧
    (kpElem c10Item c10Box none).category_id = 0 ∧
    (instSaveAnns c10Item {}).anns.length =
      ({} : TaskConv).anns.length +
        (c10Item.anns.filter (fun a => a.type == AnnType.bbox)).length ∧
    (kpSaveAnns c10Item {}).anns.length =
      ({} : TaskConv).anns.length +
        (c10Item.anns.filter (fun a => a.type == AnnType.points)).length :=
  fallback_category_zero c10Item c10Box none {} rfl

theorem exMapM_isOk {α β : Type} (f : α → Except PErr β) :
    ∀ l : List α, (exMapM f l).isOk = l.all (fun a => (f a).isOk) := by
  intro l
  induction l with
  | nil => rfl
  | cons a t ih =>
    simp only [exMapM, List.all_cons]
    cases hf : f a with
    | error e => simp [Except.isOk, Except.toBool]
    | ok b =>
      cases hr : exMapM f t with
      | error e =>
        rw [hr] at ih
        simp only [Except.isOk, Except.toBool, Bool.true_and] at ih ⊢
        exact ih
      | ok bs =>
        rw [hr] at ih
        simp only [Except.isOk, Except.toBool, Bool.true_and] at ih ⊢
        exact ih

theorem exMapM_error_of_mem {α β : Type} (f : α → Except PErr β) (x : α) (ex : PErr) :
    ∀ l : List α, x ∈ l → f x = .error ex → ∃ e, exMapM f l = .error e := by
  intro l
  induction l with
  | nil => intro h; cases h
  | cons a t ih =>
    intro hmem hfx
    cases hmem with
    | head => exact ⟨ex, by simp [exMapM, hfx]⟩
    | tail _ hm =>
      cases hf : f a with
      | error e => exact ⟨e, by simp [exMapM, hf]⟩
      | ok b =>
        obtain ⟨e, he⟩ := ih hm hfx
        exact ⟨e, by simp [exMapM, hf, he]⟩

theorem cellParse_isOk (c : String) :
    (match parseFloat? c with
     | some v => (Except.ok v : Except PErr Rat)
     | none => .error PErr.valErr).isOk = (parseFloat? c).isSome := by
  cases h : parseFloat? c <;> simp [h, Except.isOk, Except.toBool]

theorem np_array_float_isOk (rows : List (List String)) :
    (np_array_float rows).isOk = (uniformRows rows && allNumeric rows) := by
  cases hu : uniformRows rows with
  | false => simp [np_array_float, hu, Except.isOk, Except.toBool]
  | true => simp [np_array_float, hu, exMapM_isOk, cellParse_isOk, allNumeric]

theorem parseAnnChild_error (c : XmlElem) (hbad : badPoints c) :
    ∃ e, parseAnnChild c = .error e := by
  obtain ⟨s, hs, hlen, e0, he0⟩ := hbad
  cases hk : annKindOf c.tag with
  | none => exact ⟨.keyErr, by simp [parseAnnChild, hk]⟩
  | some ty =>
    cases hl : kwLookup c.attrs "label" with
    | none => exact ⟨.typeErr, by simp [parseAnnChild, hk, mkAnn, hl]⟩
    | some lab =>
      exact ⟨e0, by simp [parseAnnChild, hk, mkAnn, hl, hs, hlen, he0]⟩

theorem parseImages_error (root : XmlElem) (img c : XmlElem)
    (himg : img ∈ iterTag "image" root) (hc : c ∈ img.children) (hbad : badPoints c) :
    ∃ e, parseImages root = .error e := by
  obtain ⟨e0, he0⟩ := parseAnnChild_error c hbad
  have himgErr : ∃ e, (match mkImage img.attrs with
      | .error e => .error e
      | .ok i =>
        match exMapM parseAnnChild img.children with
        | .error e => .error e
        | .ok anns => .ok { i with anns := anns }) = (.error e : Except PErr PImage) := by
    cases hmi : mkImage img.attrs with
    | error e => exact ⟨e, by simp [hmi]⟩
    | ok i =>
      obtain ⟨e1, he1⟩ := exMapM_error_of_mem parseAnnChild c e0 img.children hc he0
      exact ⟨e1, by simp [hmi, he1]⟩
  obtain ⟨e2, he2⟩ := himgErr
  exact exMapM_error_of_mem _ img e2 _ himg he2

/-- C8 (amended): the per annotation point text is split on semicolons then on
commas and each component is parsed as a float; the conversion succeeds
exactly when the pieces have uniform arity and every component is numeric —
so a non-numeric component or ragged pieces fail, while pieces of uniform
non-pair arity are accepted; and any such failing annotation fails the whole
parse, which then produces no model (the parse returns an error and nothing
else). -/
theorem points_parse_amended :
    (∀ s : String, (np_array_float (splitPoints s)).isOk
        = (uniformRows (splitPoints s) && allNumeric (splitPoints s))) ∧
    (∀ (root img c : XmlElem), img ∈ iterTag "image" root → c ∈ img.children →
       badPoints c → ∃ e, parse_xml root = .error e) := by
  constructor
  · intro s
    exact np_array_float_isOk (splitPoints s)
  · intro root img c himg hc hbad
    obtain ⟨e, he⟩ := parseImages_error root img c himg hc hbad
    cases hv : findChild root "version" with
    | none => exact ⟨.attrErr, by simp [parse_xml, hv]⟩
    | some v =>
      cases hm : parseMeta root with
      | error e1 => exact ⟨e1, by simp [parse_xml, hv, hm]⟩
      | ok tasks => exact ⟨e, by simp [parse_xml, hv, hm, he]⟩

/-- C8 witness: the document whose only annotation carries the non-numeric
points component fails the whole parse. -/
theorem points_parse_witness :
    ∃ e, parse_xml c8BadRoot = .error e :=
  points_parse_amended.2 c8BadRoot c8BadImg c8BadAnn
    (List.mem_singleton.mpr rfl)
    (List.mem_singleton.mpr rfl)
    ⟨"a,b", rfl, by decide, PErr.valErr, rfl⟩

/-- C8 counterexample: the points text 1,2,3 is a single piece of arity 3 — a
malformed pair in the words of the claim — yet the whole parse succeeds and
produces a model whose single annotation holds one row of three floats. -/
theorem points_parse_cex :
    splitPoints "1,2,3" = [["1", "2", "3"]] ∧
    (parse_xml c8Root).isOk = true ∧
    (parse_xml c8Root).toOption.map
        (fun d => d.images.map (fun i => i.anns.map (fun a => a.points.map List.length)))
      = some [[[3]]] := by
  refine ⟨rfl, rfl, rfl⟩

theorem string_append_cancel_right (s t r : String) (h : s ++ r = t ++ r) : s = t := by
  have h2 : s.data ++ r.data = t.data ++ r.data := by
    have h1 := congrArg String.data h
    simpa [String.data_append] using h1
  have h3 := List.append_cancel_right h2
  exact congrArg String.mk h3

theorem kindName_inj (k1 k2 : CocoTaskKind) (h : kindName k1 = kindName k2) : k1 = k2 := by
  cases k1 <;> cases k2 <;> first
    | rfl
    | exact absurd h (by decide)

theorem fileNameFor_inj (k1 k2 : CocoTaskKind) (s : String)
    (h : fileNameFor k1 s = fileNameFor k2 s) : k1 = k2 := by
  have h1 : kindName k1 ++ "_" ++ s = kindName k2 ++ "_" ++ s :=
    string_append_cancel_right _ _ ".json" h
  have h2 : kindName k1 ++ "_" = kindName k2 ++ "_" :=
    string_append_cancel_right _ _ s h1
  have h3 : kindName k1 = kindName k2 :=
    string_append_cancel_right _ _ "_" h2
  exact kindName_inj k1 k2 h3

theorem convertTasks_spec (d : Dataset) (items : List CocoItem) (ns : String) :
    ∀ (tasks : List CocoTaskKind) (out : List (String × TaskData)),
      convertTasks d items ns tasks = some out →
      (∀ k, k ∈ tasks →
         ((∃ dta, (fileNameFor k ns, dta) ∈ out) ↔
           ∃ conv, runConv d items k = some conv ∧ isEmptyConv k conv = false)) ∧
      (∀ fn dta, (fn, dta) ∈ out →
         ∃ k conv, k ∈ tasks ∧ runConv d items k = some conv ∧
           isEmptyConv k conv = false ∧ fn = fileNameFor k ns ∧ dta = toData conv) := by
  intro tasks
  induction tasks with
  | nil =>
    intro out h
    simp [convertTasks] at h
    subst h
    constructor
    · intro k hk
      cases hk
    · intro fn dta hm
      cases hm
  | cons k0 rest ih =>
    intro out h
    simp only [convertTasks] at h
    cases hrc : runConv d items k0 with
    | none =>
      rw [hrc] at h
      cases h
    | some conv0 =>
      rw [hrc] at h
      cases hct : convertTasks d items ns rest with
      | none =>
        rw [hct] at h
        cases h
      | some outr =>
        rw [hct] at h
        simp only [Option.some.injEq] at h
        obtain ⟨spec1, spec2⟩ := ih outr hct
        cases hemp : isEmptyConv k0 conv0 with
        | true =>
          rw [hemp] at h
          simp at h
          subst h
          constructor
          · intro k hk
            cases List.mem_cons.mp hk with
            | inl hkk =>
              subst hkk
              constructor
              · rintro ⟨dta, hdm⟩
                obtain ⟨kx, convx, hkx, hrcx, hnex, hfnx, hdtax⟩ := spec2 _ dta hdm
                have hk0 : kx = k := fileNameFor_inj kx k ns hfnx.symm
                subst hk0
                exact ⟨convx, hrcx, hnex⟩
              · rintro ⟨conv, hconv, hne⟩
                rw [hrc] at hconv
                injection hconv with hcv
                subst hcv
                rw [hemp] at hne
                cases hne
            | inr hkr => exact spec1 k hkr
          · intro fn dta hm
            obtain ⟨kx, convx, hkx, h1, h2, h3, h4⟩ := spec2 fn dta hm
            exact ⟨kx, convx, List.mem_cons_of_mem _ hkx, h1, h2, h3, h4⟩
        | false =>
          rw [hemp] at h
          simp at h
          subst h
          constructor
          · intro k hk
            cases List.mem_cons.mp hk with
            | inl hkk =>
              subst hkk
              constructor
              · intro _
                exact ⟨conv0, hrc, hemp⟩
              · intro _
                exact ⟨toData conv0, List.mem_cons_self _ _⟩
            | inr hkr =>
              constructor
              · rintro ⟨dta, hdm⟩
                cases List.mem_cons.mp hdm with
                | inl heq =>
                  have hfn : fileNameFor k ns = fileNameFor k0 ns := congrArg Prod.fst heq
                  have hk0 : k = k0 := fileNameFor_inj k k0 ns hfn
                  subst hk0
                  exact ⟨conv0, hrc, hemp⟩
                | inr hdm2 => exact (spec1 k hkr).mp ⟨dta, hdm2⟩
              · intro hex
                obtain ⟨dta, hdm⟩ := (spec1 k hkr).mpr hex
                exact ⟨dta, List.mem_cons_of_mem _ hdm⟩
          · intro fn dta hm
            cases List.mem_cons.mp hm with
            | inl heq =>
              have hfn : fn = fileNameFor k0 ns := congrArg Prod.fst heq
              have hdta : dta = toData conv0 := congrArg Prod.snd heq
              exact ⟨k0, conv0, List.mem_cons_self _ _, hrc, hemp, hfn, hdta⟩
            | inr hm2 =>
              obtain ⟨kx, convx, hkx, h1, h2, h3, h4⟩ := spec2 fn dta hm2
              exact ⟨kx, convx, List.mem_cons_of_mem _ hkx, h1, h2, h3, h4⟩

/-- C9 (amended): in the annotations folder, one JSON document named
category_subset.json exists for a requested category exactly when its
converter is non-empty for the subset (it emitted at least one annotation
record; for image_info, at least one image); a converter that emitted no
records writes no file; and every written document is the converter output
with the five top-level keys licenses, info, categories, images,
annotations. -/
theorem convert_layout_amended (d : Dataset) (tasks : List CocoTaskKind) (sname : String)
    (items : List CocoItem) (out : List (String × TaskData))
    (h : convertSubset d tasks sname items = some out) :
    (∀ k, k ∈ tasks →
       ((∃ dta, (fileNameFor k (normSubset sname), dta) ∈ out) ↔
         ∃ conv, runConv d items k = some conv ∧ isEmptyConv k conv = false)) ∧
    (∀ fn dta, (fn, dta) ∈ out →
       ∃ k conv, k ∈ tasks ∧ runConv d items k = some conv ∧
         isEmptyConv k conv = false ∧ fn = fileNameFor k (normSubset sname) ∧
         dta = toData conv) :=
  convertTasks_spec d items (normSubset sname) tasks out h

/-- C9 witness: the image_info converter over one image with no annotations
is non-empty (it has an image) and its document is written under
image_info_train.json. -/
theorem convert_layout_witness :
    ∃ dta, (fileNameFor CocoTaskKind.image_info (normSubset "train"), dta)
      ∈ [(fileNameFor CocoTaskKind.image_info (normSubset "train"),
          toData { min_ann_id := 1, categories := [],
                   images := [imgRecOf c9Item (filenameOf c9Item)], anns := [] })] := by
  have h := convert_layout_amended {} [CocoTaskKind.image_info] "train" [c9Item]
    [(fileNameFor CocoTaskKind.image_info (normSubset "train"),
      toData { min_ann_id := 1, categories := [],
               images := [imgRecOf c9Item (filenameOf c9Item)], anns := [] })] rfl
  exact (h.1 CocoTaskKind.image_info (List.mem_singleton.mpr rfl)).mpr ⟨_, rfl, rfl⟩

/-- C9 counterexample: the instances converter over a subset with one image
and no annotations emits no record, and no instances_train.json document is
written at all — the claim requires the file to exist with empty
annotations. -/
theorem convert_layout_cex :
    convertSubset {} [CocoTaskKind.instances] "train" [c9Item] = some [] := by
  rfl
